import Mathlib

/-!
Verification development for the streaming evaluation-metric subsystem of
`cxxnet` (`src/cxxnet/utils/cxxnet_metric.h`).

Embedding conventions:
* `float`/`double` values are modelled exactly by `ℚ` (all accumulation
  arithmetic in the source is `+`, `-`, `*`, and the final reports divide);
  IEEE rounding is abstracted away, as is usual for a shallow embedding.
* A score buffer `mshadow::Tensor<cpu,2>` is a `Tensor2`: `shape0` is the
  output-axis size (`predscore.shape[0]`), `rows` lists the per-instance
  score vectors (`predscore[i]`, `i < predscore.shape[1]`); the label
  pointer `const float*` is a `List ℚ` read positionally.
* `utils::Assert` is not part of the extracted sources. Modelled from the
  spec: a violated precondition "fails fast with a diagnostic" before any
  data is processed, so `AddEval` returns `Except String State`, yielding
  `.error msg` without touching the accumulator when the shape check fails.
* A non-finite `double` produced by an unguarded division by zero is
  modelled by `Option`: `none` stands for the non-finite result, `some v`
  for the finite value `v`.  Every division actually performed by `Get()`
  on a denominator that IEEE-754 would send to `±inf`/`NaN` is mapped to
  `none`; otherwise the exact rational (or real) value is returned.
-/

/-- A two-dimensional score buffer: `shape0 = predscore.shape[0]` (output
axis), `rows` the per-instance score vectors along `shape[1]`. -/
structure Tensor2 where
  shape0 : Nat
  rows : List (List ℚ)
deriving DecidableEq

/-- One pass of the C++ instance loop shared by all three metrics:
`for i < shape[1] { state = step(state, predscore[i], labels[i]) }`. -/
def foldInst {σ : Type} (step : σ → List ℚ → ℚ → σ) : σ → List (List ℚ) → List ℚ → σ
  | st, [], _ => st
  | st, r :: rs, labs => foldInst step (step st r (labs.headD 0)) rs labs.tail

namespace MetricRMSE

/-- Accumulator of `MetricRMSE`: `sum_err` (double) and `cnt_inst` (long). -/
structure State where
  sum_err : ℚ
  cnt_inst : ℕ
deriving DecidableEq

/-- `MetricRMSE::Clear`, also the constructor's initial state. -/
def Clear : State := ⟨0, 0⟩

/-- Body of the `MetricRMSE::AddEval` loop:
`diff = predscore[i][0] - labels[i]; sum_err += diff*diff; cnt_inst += 1`. -/
def step (st : State) (row : List ℚ) (lab : ℚ) : State :=
  ⟨st.sum_err + (row.getD 0 0 - lab) * (row.getD 0 0 - lab), st.cnt_inst + 1⟩

/-- `MetricRMSE::AddEval`: asserts `predscore.shape[0] == 1`, then runs the
instance loop. -/
def AddEval (st : State) (t : Tensor2) (labels : List ℚ) : Except String State :=
  if t.shape0 = 1 then .ok (foldInst step st t.rows labels)
  else .error "RMSE can only accept shape[0]=1"

/-- `MetricRMSE::Get`: `sqrt(sum_err / cnt_inst)`, non-finite (`none`) when
`cnt_inst = 0`. -/
noncomputable def Get (st : State) : Option ℝ :=
  if st.cnt_inst = 0 then none
  else some (Real.sqrt ((st.sum_err : ℝ) / (st.cnt_inst : ℝ)))

/-- A sequence of `AddEval` calls, stopping at the first shape violation. -/
def runBatches (st : State) : List (Tensor2 × List ℚ) → Except String State
  | [] => .ok st
  | b :: bs =>
    match AddEval st b.1 b.2 with
    | .ok st2 => runBatches st2 bs
    | .error e => .error e

end MetricRMSE

namespace MetricCorrSqr

/-- Accumulator of `MetricCorrSqr`. -/
structure State where
  sum_x : ℚ
  sum_y : ℚ
  sum_xsqr : ℚ
  sum_ysqr : ℚ
  sum_xyprod : ℚ
  cnt_inst : ℕ
deriving DecidableEq

/-- `MetricCorrSqr::Clear`, also the constructor's initial state. -/
def Clear : State := ⟨0, 0, 0, 0, 0, 0⟩

/-- Body of the `MetricCorrSqr::AddEval` loop:
`x = predscore[i][0] - 0.5f; y = labels[i] - 0.5f;` then accumulate. -/
def step (st : State) (row : List ℚ) (lab : ℚ) : State :=
  let x := row.getD 0 0 - 1/2
  let y := lab - 1/2
  ⟨st.sum_x + x, st.sum_y + y, st.sum_xsqr + x * x, st.sum_ysqr + y * y,
    st.sum_xyprod + x * y, st.cnt_inst + 1⟩

/-- `MetricCorrSqr::AddEval`: asserts `predscore.shape[0] == 1` (the message
string is copy-pasted from RMSE in the source), then runs the loop. -/
def AddEval (st : State) (t : Tensor2) (labels : List ℚ) : Except String State :=
  if t.shape0 = 1 then .ok (foldInst step st t.rows labels)
  else .error "RMSE can only accept shape[0]=1"

/-- `mean_x = sum_x / cnt_inst` of `MetricCorrSqr::Get`. -/
def mean_x (st : State) : ℚ := st.sum_x / st.cnt_inst

/-- `mean_y = sum_y / cnt_inst` of `MetricCorrSqr::Get`. -/
def mean_y (st : State) : ℚ := st.sum_y / st.cnt_inst

/-- `corr = sum_xyprod / cnt_inst - mean_x*mean_y` of `MetricCorrSqr::Get`. -/
def corr (st : State) : ℚ := st.sum_xyprod / st.cnt_inst - mean_x st * mean_y st

/-- `xvar = sum_xsqr / cnt_inst - mean_x*mean_x` of `MetricCorrSqr::Get`. -/
def xvar (st : State) : ℚ := st.sum_xsqr / st.cnt_inst - mean_x st * mean_x st

/-- `yvar = sum_ysqr / cnt_inst - mean_y*mean_y` of `MetricCorrSqr::Get`. -/
def yvar (st : State) : ℚ := st.sum_ysqr / st.cnt_inst - mean_y st * mean_y st

/-- `MetricCorrSqr::Get`: `corr*corr / (xvar*yvar)`; non-finite (`none`) when
`cnt_inst = 0` (every mean is a division by zero) or when `xvar*yvar = 0`
(the final division by zero, the degenerate case the spec accepts). -/
def Get (st : State) : Option ℚ :=
  if st.cnt_inst = 0 then none
  else if xvar st * yvar st = 0 then none
  else some (corr st * corr st / (xvar st * yvar st))

/-- A sequence of `AddEval` calls, stopping at the first shape violation. -/
def runBatches (st : State) : List (Tensor2 × List ℚ) → Except String State
  | [] => .ok st
  | b :: bs =>
    match AddEval st b.1 b.2 with
    | .ok st2 => runBatches st2 bs
    | .error e => .error e

end MetricCorrSqr

/-- C cast `(int)f` of a value that is an exact rational: truncation toward
zero. -/
def truncInt (q : ℚ) : ℤ := q.num.tdiv q.den

namespace MetricError

/-- The loop of `MetricError::GetMaxIndex` with its trip count made explicit:
`k` iterations remain, `maxidx` is the best index so far, `i` the scanning
index; `maxidx` is replaced on strict `pred[i] > pred[maxidx]`. -/
def GetMaxIndexAux (pred : List ℚ) : ℕ → ℕ → ℕ → ℕ
  | 0, maxidx, _ => maxidx
  | k + 1, maxidx, i =>
    GetMaxIndexAux pred k (if pred.getD i 0 > pred.getD maxidx 0 then i else maxidx) (i + 1)

/-- `MetricError::GetMaxIndex`: first-occurrence argmax. The C loop starts at
`maxidx = 0`, `i = 1` and runs while `i < pred.shape[0]`, i.e. exactly
`pred.length - 1` times. -/
def GetMaxIndex (pred : List ℚ) : ℕ := GetMaxIndexAux pred (pred.length - 1) 0 1

/-- Accumulator of `MetricError`: `sum_err` (double) and `cnt_inst` (long). -/
structure State where
  sum_err : ℚ
  cnt_inst : ℕ
deriving DecidableEq

/-- `MetricError::Clear`, also the constructor's initial state. -/
def Clear : State := ⟨0, 0⟩

/-- Body of the `MetricError::AddEval` loop:
`sum_err += GetMaxIndex(predscore[i]) != (int)labels[i]; cnt_inst += 1`. -/
def step (st : State) (row : List ℚ) (lab : ℚ) : State :=
  ⟨st.sum_err + (if (GetMaxIndex row : ℤ) ≠ truncInt lab then 1 else 0), st.cnt_inst + 1⟩

/-- `MetricError::AddEval`: the source asserts `predscore.shape[0] == 1`
(with the RMSE diagnostic string), then runs the instance loop. -/
def AddEval (st : State) (t : Tensor2) (labels : List ℚ) : Except String State :=
  if t.shape0 = 1 then .ok (foldInst step st t.rows labels)
  else .error "RMSE can only accept shape[0]=1"

/-- `MetricError::Get`: `sum_err / cnt_inst`, non-finite (`none`) when
`cnt_inst = 0`. -/
def Get (st : State) : Option ℚ :=
  if st.cnt_inst = 0 then none else some (st.sum_err / st.cnt_inst)

end MetricError

/-- The three concrete metrics `MetricSet::AddMetric` can construct; at this
level a stored `IMetric*` is identified by its variant, whose `Name()` is the
deduplication key. -/
inductive MetricKind
  | rmse
  | error
  | r2
deriving DecidableEq, Fintype

/-- `Name()` of each metric variant. -/
def MetricKind.Name : MetricKind → String
  | .rmse => "rmse"
  | .error => "error"
  | .r2 => "r2"

/-- Byte-wise `strcmp(a,b) < 0` on the character lists of two names (all
names involved are ASCII, so C byte order agrees with `Char` order). -/
def strlt : List Char → List Char → Bool
  | [], [] => false
  | [], _ :: _ => true
  | _ :: _, [] => false
  | c :: cs, d :: ds => if c < d then true else if d < c then false else strlt cs ds

/-- `MetricSet::CmpName`: `strcmp(a->Name(), b->Name()) < 0`. -/
def nameLt (a b : MetricKind) : Prop := strlt a.Name.data b.Name.data = true

/-- The non-strict order induced by the `std::sort` comparator `CmpName`:
an element may precede another iff the comparator does not order them the
other way around. -/
def nameLe (a b : MetricKind) : Prop := strlt b.Name.data a.Name.data = false

instance : DecidableRel nameLt := fun _ _ => instDecidableEqBool _ _

instance : DecidableRel nameLe := fun _ _ => instDecidableEqBool _ _

instance : IsTotal MetricKind nameLe := ⟨by decide⟩

instance : IsTrans MetricKind nameLe := ⟨by decide⟩

/-- `std::sort(evals_.begin(), evals_.end(), CmpName)`: produces the
permutation sorted by `nameLe`; since equal-named variants are equal values,
this list is the sort's output whatever unstable order `std::sort` picks. -/
def sortMetrics (l : List MetricKind) : List MetricKind := List.insertionSort nameLe l

/-- Tail worker of `std::unique(..., EqualName)`: `prev` is the last element
kept; a consecutive element with the same `Name()` is dropped. -/
def uniqDrop (prev : MetricKind) : List MetricKind → List MetricKind
  | [] => []
  | y :: ys => if prev.Name = y.Name then uniqDrop prev ys else y :: uniqDrop y ys

/-- `std::unique` over `EqualName` followed by the `resize`: keeps the first
element of every run of consecutive equal-named elements. -/
def uniqueMetrics : List MetricKind → List MetricKind
  | [] => []
  | x :: xs => x :: uniqDrop x xs

/-- `MetricSet::AddMetric`: push the variant selected by `strcmp` against the
three registry names (unknown names push nothing), then sort by name and
deduplicate. -/
def MetricSet.AddMetric (name : String) (evals : List MetricKind) : List MetricKind :=
  let e1 := if name = "rmse" then evals ++ [MetricKind.rmse] else evals
  let e2 := if name = "error" then e1 ++ [MetricKind.error] else e1
  let e3 := if name = "r2" then e2 ++ [MetricKind.r2] else e2
  uniqueMetrics (sortMetrics e3)

/-- Spec-side: the per-instance (score vector, label) pairs presented by a
sequence of `AddEval` batches, in order. -/
def specPairs (bs : List (Tensor2 × List ℚ)) : List (List ℚ × ℚ) :=
  (bs.map (fun b => b.1.rows.zip b.2)).flatten

/-- Spec-side: the total number `n` of instances presented by the batches. -/
def specCount (bs : List (Tensor2 × List ℚ)) : ℕ :=
  (bs.map (fun b => b.1.rows.length)).sum

/-- Spec-side: the claim's `sum over all accumulated instances of
`(score[i] - label[i])^2``. -/
def specSqErrSum (bs : List (Tensor2 × List ℚ)) : ℚ :=
  ((specPairs bs).map (fun p => (p.1.getD 0 0 - p.2) ^ 2)).sum

/-- Spec-side: the claim's `sum_x`, summing `x = score[i] - 0.5`. -/
def specSumX (bs : List (Tensor2 × List ℚ)) : ℚ :=
  ((specPairs bs).map (fun p => p.1.getD 0 0 - 1/2)).sum

/-- Spec-side: the claim's `sum_y`, summing `y = label[i] - 0.5`. -/
def specSumY (bs : List (Tensor2 × List ℚ)) : ℚ :=
  ((specPairs bs).map (fun p => p.2 - 1/2)).sum

/-- Spec-side: the claim's `sum_x2`, summing `x^2`. -/
def specSumX2 (bs : List (Tensor2 × List ℚ)) : ℚ :=
  ((specPairs bs).map (fun p => (p.1.getD 0 0 - 1/2) ^ 2)).sum

/-- Spec-side: the claim's `sum_y2`, summing `y^2`. -/
def specSumY2 (bs : List (Tensor2 × List ℚ)) : ℚ :=
  ((specPairs bs).map (fun p => (p.2 - 1/2) ^ 2)).sum

/-- Spec-side: the claim's `sum_xy`, summing `x*y`. -/
def specSumXY (bs : List (Tensor2 × List ℚ)) : ℚ :=
  ((specPairs bs).map (fun p => (p.1.getD 0 0 - 1/2) * (p.2 - 1/2))).sum

theorem foldInst_append {σ : Type} (step : σ → List ℚ → ℚ → σ) :
    ∀ (r1 : List (List ℚ)) (l1 : List ℚ) (r2 : List (List ℚ)) (l2 : List ℚ) (st : σ),
      l1.length = r1.length →
      foldInst step st (r1 ++ r2) (l1 ++ l2) = foldInst step (foldInst step st r1 l1) r2 l2
  | [], [], r2, l2, st, _ => rfl
  | r :: rs, a :: as, r2, l2, st, h => by
    simp only [List.cons_append, foldInst, List.headD_cons, List.tail_cons]
    exact foldInst_append step rs as r2 l2 (step st r a) (by simpa using h)

/-- C1: the spec says `MetricError::AddEval` accepts every output-axis size
`k ≥ 1`; the source instead asserts `predscore.shape[0] == 1` (with the
diagnostic copy-pasted from `MetricRMSE`), so a two-class buffer is rejected
with a shape-violation error and no statistics are updated. -/
theorem metricError_rejects_multiclass :
    MetricError.AddEval MetricError.Clear ⟨2, [[1, 0]]⟩ [0] =
      Except.error "RMSE can only accept shape[0]=1" := rfl

/-- C6: for RMSE and Squared-Correlation, an `AddEval` whose buffer has
output-axis size different from 1 signals the shape-violation diagnostic
before touching any data, and no updated state is produced. -/
theorem rmse_corr_shape_violation (t : Tensor2) (labels : List ℚ) (h : t.shape0 ≠ 1)
    (s1 : MetricRMSE.State) (s2 : MetricCorrSqr.State) :
    (MetricRMSE.AddEval s1 t labels = Except.error "RMSE can only accept shape[0]=1" ∧
      ∀ st, MetricRMSE.AddEval s1 t labels ≠ Except.ok st) ∧
    (MetricCorrSqr.AddEval s2 t labels = Except.error "RMSE can only accept shape[0]=1" ∧
      ∀ st, MetricCorrSqr.AddEval s2 t labels ≠ Except.ok st) := by
  simp [MetricRMSE.AddEval, MetricCorrSqr.AddEval, h]

theorem rmse_corr_shape_violation_witness :
    (MetricRMSE.AddEval MetricRMSE.Clear ⟨2, [[0, 0]]⟩ [0] =
        Except.error "RMSE can only accept shape[0]=1" ∧
      ∀ st, MetricRMSE.AddEval MetricRMSE.Clear ⟨2, [[0, 0]]⟩ [0] ≠ Except.ok st) ∧
    (MetricCorrSqr.AddEval MetricCorrSqr.Clear ⟨2, [[0, 0]]⟩ [0] =
        Except.error "RMSE can only accept shape[0]=1" ∧
      ∀ st, MetricCorrSqr.AddEval MetricCorrSqr.Clear ⟨2, [[0, 0]]⟩ [0] ≠ Except.ok st) :=
  rmse_corr_shape_violation ⟨2, [[0, 0]]⟩ [0] (by decide) MetricRMSE.Clear MetricCorrSqr.Clear

/-- C8: a zero-instance batch (no rows, legal output-axis size) leaves every
metric's accumulator exactly as it was, so later `Get()` values are the same
as if the call had not happened. -/
theorem addEval_empty_batch (t : Tensor2) (labels : List ℚ)
    (hrows : t.rows = []) (hshape : t.shape0 = 1)
    (s1 : MetricRMSE.State) (s2 : MetricCorrSqr.State) (s3 : MetricError.State) :
    MetricRMSE.AddEval s1 t labels = Except.ok s1 ∧
    MetricCorrSqr.AddEval s2 t labels = Except.ok s2 ∧
    MetricError.AddEval s3 t labels = Except.ok s3 := by
  simp [MetricRMSE.AddEval, MetricCorrSqr.AddEval, MetricError.AddEval, hshape, hrows, foldInst]

theorem addEval_empty_batch_witness :
    MetricRMSE.AddEval MetricRMSE.Clear ⟨1, []⟩ [] = Except.ok MetricRMSE.Clear ∧
    MetricCorrSqr.AddEval MetricCorrSqr.Clear ⟨1, []⟩ [] = Except.ok MetricCorrSqr.Clear ∧
    MetricError.AddEval MetricError.Clear ⟨1, []⟩ [] = Except.ok MetricError.Clear :=
  addEval_empty_batch ⟨1, []⟩ [] rfl rfl MetricRMSE.Clear MetricCorrSqr.Clear MetricError.Clear

/-- C9: with zero accumulated instances (freshly constructed or just after
`Clear`), every metric's `Get()` performs its division with `cnt_inst = 0`
unguarded and yields the non-finite result (`none`), not a raised error. -/
theorem get_zero_count_non_finite (s1 : MetricRMSE.State) (s2 : MetricCorrSqr.State)
    (s3 : MetricError.State)
    (h1 : s1.cnt_inst = 0) (h2 : s2.cnt_inst = 0) (h3 : s3.cnt_inst = 0) :
    MetricRMSE.Get s1 = none ∧ MetricCorrSqr.Get s2 = none ∧ MetricError.Get s3 = none ∧
    MetricRMSE.Get MetricRMSE.Clear = none ∧
    MetricCorrSqr.Get MetricCorrSqr.Clear = none ∧
    MetricError.Get MetricError.Clear = none := by
  simp [MetricRMSE.Get, MetricCorrSqr.Get, MetricError.Get, h1, h2, h3,
    MetricRMSE.Clear, MetricCorrSqr.Clear, MetricError.Clear]

theorem get_zero_count_non_finite_witness :
    MetricRMSE.Get ⟨5, 0⟩ = none ∧ MetricCorrSqr.Get ⟨1, 2, 3, 4, 5, 0⟩ = none ∧
    MetricError.Get ⟨5, 0⟩ = none ∧
    MetricRMSE.Get MetricRMSE.Clear = none ∧
    MetricCorrSqr.Get MetricCorrSqr.Clear = none ∧
    MetricError.Get MetricError.Clear = none :=
  get_zero_count_non_finite ⟨5, 0⟩ ⟨1, 2, 3, 4, 5, 0⟩ ⟨5, 0⟩ rfl rfl rfl

/-- C10: accumulation is batch-split invariant: for each metric, `AddEval`
on batch A then on batch B (both with the required output-axis size 1, A's
labels aligned) produces exactly the state of one `AddEval` on the
concatenation of A and B along the instance axis. -/
theorem addEval_batch_split (t1 t2 : Tensor2) (l1 l2 : List ℚ)
    (h1 : t1.shape0 = 1) (h2 : t2.shape0 = 1)
    (halign : l1.length = t1.rows.length)
    (s1 : MetricRMSE.State) (s2 : MetricCorrSqr.State) (s3 : MetricError.State) :
    ((MetricRMSE.AddEval s1 t1 l1) >>= fun st => MetricRMSE.AddEval st t2 l2) =
        MetricRMSE.AddEval s1 ⟨1, t1.rows ++ t2.rows⟩ (l1 ++ l2) ∧
    ((MetricCorrSqr.AddEval s2 t1 l1) >>= fun st => MetricCorrSqr.AddEval st t2 l2) =
        MetricCorrSqr.AddEval s2 ⟨1, t1.rows ++ t2.rows⟩ (l1 ++ l2) ∧
    ((MetricError.AddEval s3 t1 l1) >>= fun st => MetricError.AddEval st t2 l2) =
        MetricError.AddEval s3 ⟨1, t1.rows ++ t2.rows⟩ (l1 ++ l2) := by
  refine ⟨?_, ?_, ?_⟩ <;>
    · simp [MetricRMSE.AddEval, MetricCorrSqr.AddEval, MetricError.AddEval, h1, h2,
        foldInst_append _ _ _ _ _ _ halign]
      rfl

theorem addEval_batch_split_witness :
    ((MetricRMSE.AddEval MetricRMSE.Clear ⟨1, [[1]]⟩ [0] >>=
        fun st => MetricRMSE.AddEval st ⟨1, [[0]]⟩ [1]) =
        MetricRMSE.AddEval MetricRMSE.Clear ⟨1, [[1], [0]]⟩ [0, 1]) ∧
    ((MetricCorrSqr.AddEval MetricCorrSqr.Clear ⟨1, [[1]]⟩ [0] >>=
        fun st => MetricCorrSqr.AddEval st ⟨1, [[0]]⟩ [1]) =
        MetricCorrSqr.AddEval MetricCorrSqr.Clear ⟨1, [[1], [0]]⟩ [0, 1]) ∧
    ((MetricError.AddEval MetricError.Clear ⟨1, [[1]]⟩ [0] >>=
        fun st => MetricError.AddEval st ⟨1, [[0]]⟩ [1]) =
        MetricError.AddEval MetricError.Clear ⟨1, [[1], [0]]⟩ [0, 1]) :=
  addEval_batch_split ⟨1, [[1]]⟩ ⟨1, [[0]]⟩ [0] [1] rfl rfl (by decide)
    MetricRMSE.Clear MetricCorrSqr.Clear MetricError.Clear

theorem rmse_foldInst_spec :
    ∀ (rows : List (List ℚ)) (labs : List ℚ) (st : MetricRMSE.State),
      labs.length = rows.length →
      foldInst MetricRMSE.step st rows labs =
        ⟨st.sum_err + ((rows.zip labs).map (fun p => (p.1.getD 0 0 - p.2) ^ 2)).sum,
          st.cnt_inst + rows.length⟩
  | [], [], st, _ => by simp [foldInst]
  | r :: rs, a :: as, st, h => by
    rw [foldInst, List.headD_cons, List.tail_cons,
      rmse_foldInst_spec rs as _ (by simpa using h)]
    simp [MetricRMSE.step]
    ring_nf
    constructor
    · ring
    · omega

theorem rmse_runBatches_spec :
    ∀ (bs : List (Tensor2 × List ℚ)) (st : MetricRMSE.State),
      (∀ b ∈ bs, b.1.shape0 = 1) → (∀ b ∈ bs, b.2.length = b.1.rows.length) →
      MetricRMSE.runBatches st bs =
        Except.ok ⟨st.sum_err + specSqErrSum bs, st.cnt_inst + specCount bs⟩
  | [], st, _, _ => by simp [MetricRMSE.runBatches, specSqErrSum, specPairs, specCount]
  | b :: bs, st, hshape, halign => by
    rw [MetricRMSE.runBatches, MetricRMSE.AddEval, if_pos (hshape b (by simp)),
      rmse_foldInst_spec b.1.rows b.2 st (halign b (by simp))]
    dsimp only
    rw [rmse_runBatches_spec bs _ (fun x hx => hshape x (by simp [hx]))
        (fun x hx => halign x (by simp [hx]))]
    simp only [specSqErrSum, specPairs, specCount, List.map_cons, List.flatten_cons,
      List.map_append, List.sum_append, List.sum_cons]
    congr 2
    · ring
    · omega

/-- C3: over any sequence of shape-1 `AddEval` calls accumulating `n ≥ 1`
instances, RMSE's `sum_err` is the sum of squared score-label differences,
`cnt_inst` is `n`, and `Get()` is `sqrt(sum_err / n)`. -/
theorem rmse_accumulates_and_reports (bs : List (Tensor2 × List ℚ))
    (hshape : ∀ b ∈ bs, b.1.shape0 = 1)
    (halign : ∀ b ∈ bs, b.2.length = b.1.rows.length)
    (hn : 1 ≤ specCount bs) :
    ∃ st : MetricRMSE.State,
      MetricRMSE.runBatches MetricRMSE.Clear bs = Except.ok st ∧
      st.sum_err = specSqErrSum bs ∧
      st.cnt_inst = specCount bs ∧
      MetricRMSE.Get st = some (Real.sqrt ((specSqErrSum bs : ℝ) / (specCount bs : ℝ))) := by
  refine ⟨⟨specSqErrSum bs, specCount bs⟩, ?_, rfl, rfl, ?_⟩
  · rw [rmse_runBatches_spec bs MetricRMSE.Clear hshape halign]
    simp [MetricRMSE.Clear]
  · have hz : specCount bs ≠ 0 := by omega
    simp [MetricRMSE.Get, hz]

theorem rmse_accumulates_and_reports_witness :
    ∃ st : MetricRMSE.State,
      MetricRMSE.runBatches MetricRMSE.Clear [(⟨1, [[0], [1]]⟩, [0, 0])] = Except.ok st ∧
      st.sum_err = specSqErrSum [(⟨1, [[0], [1]]⟩, [0, 0])] ∧
      st.cnt_inst = specCount [(⟨1, [[0], [1]]⟩, [0, 0])] ∧
      MetricRMSE.Get st = some (Real.sqrt ((specSqErrSum [(⟨1, [[0], [1]]⟩, [0, 0])] : ℝ) /
        (specCount [(⟨1, [[0], [1]]⟩, [0, 0])] : ℝ))) :=
  rmse_accumulates_and_reports [(⟨1, [[0], [1]]⟩, [0, 0])]
    (by decide) (by decide) (by decide)

theorem corr_foldInst_spec :
    ∀ (rows : List (List ℚ)) (labs : List ℚ) (st : MetricCorrSqr.State),
      labs.length = rows.length →
      foldInst MetricCorrSqr.step st rows labs =
        ⟨st.sum_x + ((rows.zip labs).map (fun p => p.1.getD 0 0 - 1/2)).sum,
          st.sum_y + ((rows.zip labs).map (fun p => p.2 - 1/2)).sum,
          st.sum_xsqr + ((rows.zip labs).map (fun p => (p.1.getD 0 0 - 1/2) ^ 2)).sum,
          st.sum_ysqr + ((rows.zip labs).map (fun p => (p.2 - 1/2) ^ 2)).sum,
          st.sum_xyprod + ((rows.zip labs).map (fun p => (p.1.getD 0 0 - 1/2) * (p.2 - 1/2))).sum,
          st.cnt_inst + rows.length⟩
  | [], [], st, _ => by simp [foldInst]
  | r :: rs, a :: as, st, h => by
    rw [foldInst, List.headD_cons, List.tail_cons,
      corr_foldInst_spec rs as _ (by simpa using h)]
    simp only [MetricCorrSqr.step, List.zip_cons_cons, List.map_cons, List.sum_cons,
      List.length_cons]
    congr 1 <;> ring

theorem corr_runBatches_spec :
    ∀ (bs : List (Tensor2 × List ℚ)) (st : MetricCorrSqr.State),
      (∀ b ∈ bs, b.1.shape0 = 1) → (∀ b ∈ bs, b.2.length = b.1.rows.length) →
      MetricCorrSqr.runBatches st bs =
        Except.ok ⟨st.sum_x + specSumX bs, st.sum_y + specSumY bs,
          st.sum_xsqr + specSumX2 bs, st.sum_ysqr + specSumY2 bs,
          st.sum_xyprod + specSumXY bs, st.cnt_inst + specCount bs⟩
  | [], st, _, _ => by
    simp [MetricCorrSqr.runBatches, specSumX, specSumY, specSumX2, specSumY2, specSumXY,
      specPairs, specCount]
  | b :: bs, st, hshape, halign => by
    rw [MetricCorrSqr.runBatches, MetricCorrSqr.AddEval, if_pos (hshape b (by simp)),
      corr_foldInst_spec b.1.rows b.2 st (halign b (by simp))]
    dsimp only
    rw [corr_runBatches_spec bs _ (fun x hx => hshape x (by simp [hx]))
        (fun x hx => halign x (by simp [hx]))]
    simp only [specSumX, specSumY, specSumX2, specSumY2, specSumXY, specPairs, specCount,
      List.map_cons, List.flatten_cons, List.map_append, List.sum_append, List.sum_cons]
    congr 2 <;> ring

/-- C4: `MetricCorrSqr::AddEval` accumulates the 0.5-centered per-instance
values into the six running sums, and `Get()` (whenever its divisions are by
nonzero quantities) returns `cov^2 / (var_x * var_y)` with the spec's
formulas for means, covariance and variances. -/
theorem corrsqr_accumulates_and_reports (bs : List (Tensor2 × List ℚ))
    (hshape : ∀ b ∈ bs, b.1.shape0 = 1)
    (halign : ∀ b ∈ bs, b.2.length = b.1.rows.length)
    (s : MetricCorrSqr.State) (h0 : s.cnt_inst ≠ 0)
    (hv : (s.sum_xsqr / s.cnt_inst - (s.sum_x / s.cnt_inst) ^ 2) *
        (s.sum_ysqr / s.cnt_inst - (s.sum_y / s.cnt_inst) ^ 2) ≠ 0) :
    (∃ st : MetricCorrSqr.State,
      MetricCorrSqr.runBatches MetricCorrSqr.Clear bs = Except.ok st ∧
      st.sum_x = specSumX bs ∧ st.sum_y = specSumY bs ∧
      st.sum_xsqr = specSumX2 bs ∧ st.sum_ysqr = specSumY2 bs ∧
      st.sum_xyprod = specSumXY bs ∧ st.cnt_inst = specCount bs) ∧
    MetricCorrSqr.Get s =
      some ((s.sum_xyprod / s.cnt_inst - s.sum_x / s.cnt_inst * (s.sum_y / s.cnt_inst)) ^ 2 /
        ((s.sum_xsqr / s.cnt_inst - (s.sum_x / s.cnt_inst) ^ 2) *
          (s.sum_ysqr / s.cnt_inst - (s.sum_y / s.cnt_inst) ^ 2))) := by
  constructor
  · refine ⟨⟨specSumX bs, specSumY bs, specSumX2 bs, specSumY2 bs, specSumXY bs, specCount bs⟩,
      ?_, rfl, rfl, rfl, rfl, rfl, rfl⟩
    rw [corr_runBatches_spec bs MetricCorrSqr.Clear hshape halign]
    simp [MetricCorrSqr.Clear]
  · have hx : MetricCorrSqr.xvar s =
        s.sum_xsqr / s.cnt_inst - (s.sum_x / s.cnt_inst) ^ 2 := by
      rw [MetricCorrSqr.xvar, MetricCorrSqr.mean_x]; ring
    have hy : MetricCorrSqr.yvar s =
        s.sum_ysqr / s.cnt_inst - (s.sum_y / s.cnt_inst) ^ 2 := by
      rw [MetricCorrSqr.yvar, MetricCorrSqr.mean_y]; ring
    have hc : MetricCorrSqr.corr s =
        s.sum_xyprod / s.cnt_inst - s.sum_x / s.cnt_inst * (s.sum_y / s.cnt_inst) := by
      rw [MetricCorrSqr.corr, MetricCorrSqr.mean_x, MetricCorrSqr.mean_y]
    rw [MetricCorrSqr.Get, if_neg h0, hx, hy, if_neg hv, hc]
    congr 1
    ring

theorem corrsqr_accumulates_and_reports_witness :
    (∃ st : MetricCorrSqr.State,
      MetricCorrSqr.runBatches MetricCorrSqr.Clear [(⟨1, [[0], [1]]⟩, [0, 1])] = Except.ok st ∧
      st.sum_x = specSumX [(⟨1, [[0], [1]]⟩, [0, 1])] ∧
      st.sum_y = specSumY [(⟨1, [[0], [1]]⟩, [0, 1])] ∧
      st.sum_xsqr = specSumX2 [(⟨1, [[0], [1]]⟩, [0, 1])] ∧
      st.sum_ysqr = specSumY2 [(⟨1, [[0], [1]]⟩, [0, 1])] ∧
      st.sum_xyprod = specSumXY [(⟨1, [[0], [1]]⟩, [0, 1])] ∧
      st.cnt_inst = specCount [(⟨1, [[0], [1]]⟩, [0, 1])]) ∧
    MetricCorrSqr.Get ⟨0, 0, 1, 1, 1, 1⟩ =
      some ((MetricCorrSqr.State.sum_xyprod ⟨0, 0, 1, 1, 1, 1⟩ / (1 : ℕ) -
          (0 : ℚ) / (1 : ℕ) * ((0 : ℚ) / (1 : ℕ))) ^ 2 /
        (((1 : ℚ) / (1 : ℕ) - ((0 : ℚ) / (1 : ℕ)) ^ 2) *
          ((1 : ℚ) / (1 : ℕ) - ((0 : ℚ) / (1 : ℕ)) ^ 2))) :=
  corrsqr_accumulates_and_reports [(⟨1, [[0], [1]]⟩, [0, 1])] (by decide) (by decide)
    ⟨0, 0, 1, 1, 1, 1⟩ (by decide) (by simp)

theorem getMaxIndexAux_spec (pred : List ℚ) :
    ∀ (k i maxidx : ℕ), i + k = pred.length → maxidx < i →
      (∀ j, j < i → pred.getD j 0 ≤ pred.getD maxidx 0) →
      (∀ j, j < maxidx → pred.getD j 0 < pred.getD maxidx 0) →
      MetricError.GetMaxIndexAux pred k maxidx i < pred.length ∧
      (∀ j, j < pred.length →
        pred.getD j 0 ≤ pred.getD (MetricError.GetMaxIndexAux pred k maxidx i) 0) ∧
      (∀ j, j < MetricError.GetMaxIndexAux pred k maxidx i →
        pred.getD j 0 < pred.getD (MetricError.GetMaxIndexAux pred k maxidx i) 0)
  | 0, i, maxidx, hik, hmi, hle, hlt => by
    rw [MetricError.GetMaxIndexAux]
    exact ⟨by omega, fun j hj => hle j (by omega), hlt⟩
  | k + 1, i, maxidx, hik, hmi, hle, hlt => by
    rw [MetricError.GetMaxIndexAux]
    by_cases hc : pred.getD i 0 > pred.getD maxidx 0
    · rw [if_pos hc]
      refine getMaxIndexAux_spec pred k (i + 1) i (by omega) (by omega) ?_ ?_
      · intro j hj
        rcases Nat.lt_succ_iff_lt_or_eq.mp hj with hj2 | hj2
        · exact le_of_lt (lt_of_le_of_lt (hle j hj2) hc)
        · simp [hj2]
      · intro j hj
        exact lt_of_le_of_lt (hle j hj) hc
    · rw [if_neg hc]
      refine getMaxIndexAux_spec pred k (i + 1) maxidx (by omega) (by omega) ?_ hlt
      intro j hj
      rcases Nat.lt_succ_iff_lt_or_eq.mp hj with hj2 | hj2
      · exact hle j hj2
      · rw [hj2]
        exact le_of_not_lt hc

/-- C5: `MetricError::GetMaxIndex` returns the index of the maximum score
with ties broken by the first occurrence (all earlier indices are strictly
smaller), and each instance processed by the `AddEval` loop adds 1 to
`sum_err` exactly when that index differs from the label cast to an integer
class index, always adding 1 to `cnt_inst`. -/
theorem error_first_argmax_and_increment (pred : List ℚ) (hne : pred ≠ [])
    (st : MetricError.State) (row : List ℚ) (lab : ℚ) :
    (MetricError.GetMaxIndex pred < pred.length ∧
      (∀ j, j < pred.length →
        pred.getD j 0 ≤ pred.getD (MetricError.GetMaxIndex pred) 0) ∧
      (∀ j, j < MetricError.GetMaxIndex pred →
        pred.getD j 0 < pred.getD (MetricError.GetMaxIndex pred) 0)) ∧
    MetricError.step st row lab =
      ⟨st.sum_err + (if (MetricError.GetMaxIndex row : ℤ) ≠ truncInt lab then 1 else 0),
        st.cnt_inst + 1⟩ := by
  constructor
  · have hlen : 1 ≤ pred.length := by
      cases pred with
      | nil => exact absurd rfl hne
      | cons a l => simp
    exact getMaxIndexAux_spec pred (pred.length - 1) 1 0 (by omega) (by omega)
      (fun j hj => by interval_cases j; simp) (fun j hj => by omega)
  · rfl

theorem error_first_argmax_and_increment_witness :
    ((MetricError.GetMaxIndex [(1 : ℚ), 3, 3, 2] < ([(1 : ℚ), 3, 3, 2]).length ∧
      (∀ j, j < ([(1 : ℚ), 3, 3, 2]).length →
        List.getD [(1 : ℚ), 3, 3, 2] j 0 ≤
          List.getD [(1 : ℚ), 3, 3, 2] (MetricError.GetMaxIndex [(1 : ℚ), 3, 3, 2]) 0) ∧
      (∀ j, j < MetricError.GetMaxIndex [(1 : ℚ), 3, 3, 2] →
        List.getD [(1 : ℚ), 3, 3, 2] j 0 <
          List.getD [(1 : ℚ), 3, 3, 2] (MetricError.GetMaxIndex [(1 : ℚ), 3, 3, 2]) 0)) ∧
    MetricError.step ⟨0, 0⟩ [0, 1] 1 =
      ⟨(0 : ℚ) + (if (MetricError.GetMaxIndex [0, 1] : ℤ) ≠ truncInt 1 then 1 else 0),
        (0 : ℕ) + 1⟩) :=
  error_first_argmax_and_increment [(1 : ℚ), 3, 3, 2] (by decide) ⟨0, 0⟩ [0, 1] 1

theorem nameLe_of_nameLt : ∀ a b : MetricKind, nameLt a b → nameLe a b := by decide

theorem nameLt_of_nameLe_ne : ∀ a b : MetricKind, nameLe a b → a ≠ b → nameLt a b := by decide

theorem metricKind_name_inj : ∀ a b : MetricKind, a.Name = b.Name ↔ a = b := by decide

theorem metricKind_name_ne_of_nameLt : ∀ a b : MetricKind, nameLt a b → a.Name ≠ b.Name := by
  decide

theorem metricKind_eq_of_le_le_eq :
    ∀ a b c : MetricKind, nameLe a b → nameLe b c → a = c → a = b := by decide

theorem uniqDrop_sublist :
    ∀ (ys : List MetricKind) (p : MetricKind), List.Sublist (uniqDrop p ys) ys
  | [], _ => List.Sublist.refl []
  | y :: ys, p => by
    rw [uniqDrop]
    by_cases h : p.Name = y.Name
    · rw [if_pos h]
      exact (uniqDrop_sublist ys p).trans (List.sublist_cons_self y ys)
    · rw [if_neg h]
      exact (uniqDrop_sublist ys y).cons₂ y

theorem uniqDrop_pairwise :
    ∀ (xs : List MetricKind) (x : MetricKind),
      (∀ z ∈ xs, nameLe x z) → xs.Pairwise nameLe →
      (x :: uniqDrop x xs).Pairwise nameLt
  | [], x, _, _ => by simp [uniqDrop]
  | y :: ys, x, hxz, hp => by
    rw [uniqDrop]
    by_cases h : x.Name = y.Name
    · rw [if_pos h]
      have hxy : x = y := (metricKind_name_inj x y).mp h
      refine uniqDrop_pairwise ys x ?_ (List.Pairwise.of_cons hp)
      intro z hz
      rw [hxy]
      exact (List.pairwise_cons.mp hp).1 z hz
    · rw [if_neg h]
      have hyys := uniqDrop_pairwise ys y
        (fun z hz => List.rel_of_pairwise_cons hp hz) (List.Pairwise.of_cons hp)
      refine List.pairwise_cons.mpr ⟨?_, hyys⟩
      intro z hz
      rcases List.mem_cons.mp hz with hz2 | hz2
      · refine nameLt_of_nameLe_ne x z (hz2 ▸ hxz y (by simp)) ?_
        intro heq
        exact h (congrArg MetricKind.Name (hz2 ▸ heq))
      · have hzys : z ∈ ys := (uniqDrop_sublist ys y).subset hz2
        refine nameLt_of_nameLe_ne x z (hxz z (by simp [hzys])) ?_
        intro heq
        exact h (congrArg MetricKind.Name
          (metricKind_eq_of_le_le_eq x y z (hxz y (by simp))
            (List.rel_of_pairwise_cons hp hzys) heq))

theorem uniqueMetrics_pairwise :
    ∀ (l : List MetricKind), l.Pairwise nameLe → (uniqueMetrics l).Pairwise nameLt
  | [], _ => by simp [uniqueMetrics]
  | x :: xs, hp => by
    rw [uniqueMetrics]
    exact uniqDrop_pairwise xs x
      (fun z hz => List.rel_of_pairwise_cons hp hz) (List.Pairwise.of_cons hp)

theorem sortMetrics_pairwise (l : List MetricKind) : (sortMetrics l).Pairwise nameLe :=
  List.sorted_insertionSort nameLe l

/-- C2: after every `MetricSet::AddMetric` call the member collection is
strictly sorted by name (hence holds at most one metric per distinct
reported name), and adding `"rmse"` twice yields exactly one member named
`"rmse"`. -/
theorem addMetric_sorted_dedup (name : String) (evals : List MetricKind) :
    (MetricSet.AddMetric name evals).Pairwise nameLt ∧
    ((MetricSet.AddMetric name evals).map MetricKind.Name).Nodup ∧
    MetricSet.AddMetric "rmse" (MetricSet.AddMetric "rmse" []) = [MetricKind.rmse] := by
  have hp : (MetricSet.AddMetric name evals).Pairwise nameLt :=
    uniqueMetrics_pairwise _ (sortMetrics_pairwise _)
  refine ⟨hp, ?_, by decide⟩
  have hn : ((MetricSet.AddMetric name evals).map MetricKind.Name).Pairwise (· ≠ ·) :=
    List.pairwise_map.mpr (hp.imp (fun h => metricKind_name_ne_of_nameLt _ _ h))
  exact hn

theorem addMetric_sorted_dedup_witness :
    (MetricSet.AddMetric "error" [MetricKind.rmse]).Pairwise nameLt ∧
    ((MetricSet.AddMetric "error" [MetricKind.rmse]).map MetricKind.Name).Nodup ∧
    MetricSet.AddMetric "rmse" (MetricSet.AddMetric "rmse" []) = [MetricKind.rmse] :=
  addMetric_sorted_dedup "error" [MetricKind.rmse]

theorem uniqDrop_eq_self :
    ∀ (xs : List MetricKind) (x : MetricKind),
      (∀ z ∈ xs, nameLt x z) → xs.Pairwise nameLt → uniqDrop x xs = xs
  | [], _, _, _ => rfl
  | y :: ys, x, hxz, hp => by
    rw [uniqDrop, if_neg (metricKind_name_ne_of_nameLt x y (hxz y (by simp)))]
    rw [uniqDrop_eq_self ys y
      (fun z hz => List.rel_of_pairwise_cons hp hz) (List.Pairwise.of_cons hp)]

theorem uniqueMetrics_eq_self :
    ∀ (l : List MetricKind), l.Pairwise nameLt → uniqueMetrics l = l
  | [], _ => rfl
  | x :: xs, hp => by
    rw [uniqueMetrics,
      uniqDrop_eq_self xs x
        (fun z hz => List.rel_of_pairwise_cons hp hz) (List.Pairwise.of_cons hp)]

/-- C7: `MetricSet::AddMetric` with a name outside the registry
(`"rmse"`, `"error"`, `"r2"`) raises no error and leaves any collection that
satisfies the sorted-deduplicated invariant (as every reachable collection
does, by the C2 theorem) exactly unchanged. -/
theorem addMetric_unknown_noop (name : String) (evals : List MetricKind)
    (hs : evals.Pairwise nameLt)
    (h1 : name ≠ "rmse") (h2 : name ≠ "error") (h3 : name ≠ "r2") :
    MetricSet.AddMetric name evals = evals := by
  rw [MetricSet.AddMetric]
  simp only [if_neg h1, if_neg h2, if_neg h3]
  rw [sortMetrics, List.Sorted.insertionSort_eq (hs.imp (fun h => nameLe_of_nameLt _ _ h)),
    uniqueMetrics_eq_self evals hs]

theorem addMetric_unknown_noop_witness :
    MetricSet.AddMetric "bogus" [MetricKind.error, MetricKind.rmse] =
      [MetricKind.error, MetricKind.rmse] :=
  addMetric_unknown_noop "bogus" [MetricKind.error, MetricKind.rmse]
    (by decide) (by decide) (by decide) (by decide)
